import Mathlib

/-!
Verification of the st_render5.2 core: the HSD binary header decoder
(hsd_reader.py), the Planck-inversion calibration engine with its
lookup-table optimization (calibration.py), the segment merger
(segment_merger.py) and the color ramps (colorscale.py).

Modelling conventions.  A byte stream is a list of naturals (each entry one
byte); file positions are naturals.  Python's struct.unpack reads fail on a
truncated stream, while file.seek and plain file.read never fail, which the
combinators below reproduce exactly.  IEEE-754 doubles are modelled as
rationals: the 8-byte groups holding doubles are interpreted through an
arbitrary decoding function (a parameter of the decoder), and all float
arithmetic of the Python source is carried out exactly in the rationals,
except the transcendental logarithm of the calibration, which lives in the
reals (Real.log applied to the exactly-computed rational argument).
-/

/-- Error raised when a struct-field read or the raw-payload read runs out
of bytes (Python: struct.error or a numpy frombuffer ValueError); the spec
calls this condition MalformedHeader. -/
inductive HsdErr where
  | malformedHeader
  deriving DecidableEq, Repr

/-- Errors of merge_segments (segment_merger.py): the empty-input ValueError
of line 80 and the width-mismatch ValueError of line 101, which the spec
calls SegmentWidthMismatch. -/
inductive MergeErr where
  | noSegments
  | segmentWidthMismatch
  deriving DecidableEq, Repr

/-- Error of hsd_calibration (calibration.py line 33): the pure-Python float
division (hs_data.H * hs_data.c) / (hs_data.k * wl) raises ZeroDivisionError
when the denominator is zero, which happens exactly when the decoder stored
no radiometric constants (bands 4..6); the spec calls this UnsupportedBand. -/
inductive CalibErr where
  | zeroDivision
  deriving DecidableEq, Repr

/-- HSData (hsd_reader.py lines 12-30): one decoded tile or a merged mosaic.
The numeric double fields are rationals (exact model of the float fields);
data is the raw uint16 sample list. -/
structure HSData where
  satellite_name : List ℕ
  width : ℕ
  height : ℕ
  band : ℕ
  wavelength : ℚ
  bit_num : ℕ
  slope : ℚ
  intc : ℚ
  c0 : ℚ
  c1 : ℚ
  c2 : ℚ
  c : ℚ
  H : ℚ
  k : ℚ
  data : List ℕ
  deriving DecidableEq, Repr

/-- Read one little-endian UInt16 at position p (struct.unpack of
fp.read(2)); fails when fewer than two bytes remain. -/
def getU16 (b : List ℕ) (p : ℕ) : Except HsdErr (ℕ × ℕ) :=
  match b.get? p, b.get? (p + 1) with
  | some x0, some x1 => .ok (x0 + 256 * x1, p + 2)
  | _, _ => .error .malformedHeader

/-- Read one little-endian UInt32 at position p (struct.unpack of
fp.read(4)); fails when fewer than four bytes remain. -/
def getU32 (b : List ℕ) (p : ℕ) : Except HsdErr (ℕ × ℕ) :=
  match b.get? p, b.get? (p + 1), b.get? (p + 2), b.get? (p + 3) with
  | some x0, some x1, some x2, some x3 =>
      .ok (x0 + 256 * x1 + 65536 * x2 + 16777216 * x3, p + 4)
  | _, _, _, _ => .error .malformedHeader

/-- Read n raw bytes at position p, failing when fewer than n remain past p
(numpy frombuffer with an explicit count rejects a short buffer; a read of
zero bytes succeeds even past the end of the stream, as in Python). -/
def getChunk (b : List ℕ) (p n : ℕ) : Except HsdErr (List ℕ × ℕ) :=
  if n ≤ b.length - p then .ok ((b.drop p).take n, p + n) else .error .malformedHeader

/-- Read one 8-byte double at position p, interpreting the bytes through the
supplied decoding function f64 (struct.unpack of fp.read(8)). -/
def getF64 (f64 : List ℕ → ℚ) (b : List ℕ) (p : ℕ) : Except HsdErr (ℚ × ℕ) :=
  match getChunk b p 8 with
  | .error e => .error e
  | .ok (l, q) => .ok (f64 l, q)

/-- Conditional calibration block of hsd_read (hsd_reader.py lines 143-155):
for band > 6 read c0, c1, c2, skip 24 bytes, read c, H, k and skip 40 bytes;
otherwise set all six constants to 0.0 and skip 112 bytes of padding.  Both
branches advance the position by exactly 112 bytes. -/
def readConsts (f64 : List ℕ → ℚ) (b : List ℕ) (band p : ℕ) :
    Except HsdErr ((ℚ × ℚ × ℚ × ℚ × ℚ × ℚ) × ℕ) :=
  if 6 < band then
    match getF64 f64 b p with
    | .error e => .error e
    | .ok (c0, p) =>
    match getF64 f64 b p with
    | .error e => .error e
    | .ok (c1, p) =>
    match getF64 f64 b p with
    | .error e => .error e
    | .ok (c2, p) =>
    match getF64 f64 b (p + 24) with
    | .error e => .error e
    | .ok (cc, p) =>
    match getF64 f64 b p with
    | .error e => .error e
    | .ok (hh, p) =>
    match getF64 f64 b p with
    | .error e => .error e
    | .ok (kk, p) => .ok ((c0, c1, c2, cc, hh, kk), p + 40)
  else .ok ((0, 0, 0, 0, 0, 0), p + 112)

/-- Header phase of hsd_read (hsd_reader.py lines 85-170): the exact byte
choreography of the Python source.  The 16-byte satellite name (after the
initial 6-byte skip) and the single ignored byte are plain file.read calls
that never fail but advance the position only to the end of a short stream
(the min terms); every seek advances unconditionally; each struct field read
fails on truncation.  Returns the decoded fields (data still empty) together
with the absolute position at which the raw payload begins. -/
def hsdReadHeader (f64 : List ℕ → ℚ) (b : List ℕ) : Except HsdErr (HSData × ℕ) :=
  match getU16 b (min (min (6 + 16) b.length + 260 + 1) b.length + 4) with
  | .error e => .error e
  | .ok (width, p) =>
  match getU16 b p with
  | .error e => .error e
  | .ok (height, p) =>
  match getU16 b (p + 41 + 269) with
  | .error e => .error e
  | .ok (band, p) =>
  match getF64 f64 b p with
  | .error e => .error e
  | .ok (wavelength, p) =>
  match getU16 b p with
  | .error e => .error e
  | .ok (bitn, p) =>
  match getF64 f64 b (p + 4) with
  | .error e => .error e
  | .ok (slope, p) =>
  match getF64 f64 b p with
  | .error e => .error e
  | .ok (intc, p) =>
  match readConsts f64 b band p with
  | .error e => .error e
  | .ok (cs, p) =>
  match getU16 b (p + 1 + 47 + 258 + 1) with
  | .error e => .error e
  | .ok (len8, p) =>
  match getU16 b (p + len8 - 2) with
  | .error e => .error e
  | .ok (len9, p) =>
  match getU32 b (p + len9 - 2) with
  | .error e => .error e
  | .ok (len10, p) =>
    .ok (⟨(b.drop 6).take 16, width, height, band, wavelength, bitn, slope, intc,
          cs.1, cs.2.1, cs.2.2.1, cs.2.2.2.1, cs.2.2.2.2.1, cs.2.2.2.2.2, []⟩,
         p + len10 + 254)

/-- Little-endian uint16 decoding of a raw byte list (numpy frombuffer with
dtype uint16). -/
def u16pairs (l : List ℕ) : List ℕ :=
  (List.range (l.length / 2)).map (fun i => l.getD (2 * i) 0 + 256 * l.getD (2 * i + 1) 0)

/-- hsd_read (hsd_reader.py lines 62-211): parse the header, then read the
width*height*2-byte raw payload at the position the header parse reached and
decode it as little-endian uint16 samples. -/
def hsdRead (f64 : List ℕ → ℚ) (b : List ℕ) : Except HsdErr HSData :=
  match hsdReadHeader f64 b with
  | .error e => .error e
  | .ok (h, p) =>
  match getChunk b p (h.width * h.height * 2) with
  | .error e => .error e
  | .ok (raw, _) => .ok { h with data := u16pairs raw }

/-- hsd_calibration (calibration.py lines 12-78).  Wavelength is converted
from micrometres to metres, the two Planck invariants are precomputed, then
a lookup table from each distinct raw sample value (np.unique) to its
brightness temperature is built and applied to every pixel.  The pure-Python
float division computing hc_over_k_wl raises ZeroDivisionError when
k * wl = 0 (there are no radiometric constants); the per-value divisions are
numpy operations and never raise.  All arithmetic below the logarithm is
exact rational arithmetic; the logarithm is Real.log of the rational
argument. -/
noncomputable def hsdCalibration (hs : HSData) : Except CalibErr (List ℝ) :=
  let wl : ℚ := hs.wavelength * (1 / 1000000)
  let wl5 : ℚ := wl ^ 5
  if hs.k * wl = 0 then .error .zeroDivision
  else
    let hc_over_k_wl : ℚ := hs.H * hs.c / (hs.k * wl)
    let h2cc : ℚ := 2 * hs.H * hs.c * hs.c
    let h2cc_over_wl5 : ℚ := h2cc / wl5 * (1 / 1000000)
    let lut : List (ℕ × ℝ) := hs.data.dedup.map (fun v =>
      (v, (hc_over_k_wl : ℝ) / Real.log ((h2cc_over_wl5 / (hs.slope * v + hs.intc) + 1 : ℚ) : ℝ)))
    .ok (hs.data.map (fun v => ((lut.lookup v).getD 0)))

/-- Specification-side reference calibration, written from the spec's words
(section 4.2): wl = wavelength converted to metres; hc_over_k_wl = H*c/(k*wl);
h2cc_over_wl5 = (2*H*c^2)/wl^5 scaled by 1e-6; radiance = slope*value +
intercept; T = hc_over_k_wl / ln(h2cc_over_wl5/radiance + 1).  This is the
direct, uncached per-pixel computation against which the lookup-table
implementation is compared. -/
noncomputable def planckDirectSpec (hs : HSData) (v : ℕ) : ℝ :=
  let wl : ℚ := hs.wavelength * (1 / 1000000)
  let hc_over_k_wl : ℚ := hs.H * hs.c / (hs.k * wl)
  let h2cc_over_wl5 : ℚ := (2 * hs.H * hs.c ^ 2) / wl ^ 5 * (1 / 1000000)
  let radiance : ℚ := hs.slope * v + hs.intc
  (hc_over_k_wl : ℝ) / Real.log ((h2cc_over_wl5 / radiance + 1 : ℚ) : ℝ)

/-- Radiance-domain threshold of the spec's failure clause for claim C2:
h2cc_over_wl5 as the calibration computes it. -/
def h2ccOverWl5 (hs : HSData) : ℚ :=
  2 * hs.H * hs.c * hs.c / (hs.wavelength * (1 / 1000000)) ^ 5 * (1 / 1000000)

/-- Width check of the merge loop (segment_merger.py lines 97-101): every
subsequent segment's width must equal the first segment's width. -/
def widthsOk (w : ℕ) : List HSData → Bool
  | [] => true
  | s :: r => s.width == w && widthsOk w r

/-- merge_segments (segment_merger.py lines 67-139), embedded over the list
of already-decoded segments (the Python function reads each path with
hsd_read first; file access is outside the model).  An empty list raises; a
width mismatch against the first segment raises SegmentWidthMismatch; else
the raw data arrays are concatenated in the given order, heights are summed,
and all other metadata is copied from the first segment. -/
def mergeSegments (segs : List HSData) : Except MergeErr HSData :=
  match segs with
  | [] => .error .noSegments
  | s0 :: rest =>
    if widthsOk s0.width rest then
      .ok ⟨s0.satellite_name, s0.width, ((s0 :: rest).map HSData.height).sum,
           s0.band, s0.wavelength, s0.bit_num, s0.slope, s0.intc,
           s0.c0, s0.c1, s0.c2, s0.c, s0.H, s0.k,
           ((s0 :: rest).map HSData.data).flatten⟩
    else .error .segmentWidthMismatch

/-- Sum of the heights of the first j segments: the row offset at which
segment j starts inside the merged mosaic. -/
def heightsBefore (l : List HSData) (j : ℕ) : ℕ :=
  ((l.take j).map HSData.height).sum

/-- Row r of a row-major raster of width w. -/
def rowOf (d : List ℕ) (w r : ℕ) : List ℕ :=
  (d.drop (r * w)).take w

/-- Numeric value of an ASCII digit character. -/
def segDigit (c : Char) : ℕ := c.toNat - 48

/-- Match of the segment token _S(dd)10 at the head of the string
(segment_merger.py line 29: the regex piece tried at one position). -/
def segTokenAt : List Char → Option ℕ
  | '_' :: 'S' :: a :: b :: '1' :: '0' :: _ =>
      if a.isDigit && b.isDigit then some (segDigit a * 10 + segDigit b) else none
  | _ => none

/-- parse_segment_number (segment_merger.py lines 14-32): re.search scans
left to right for the first position where _S(dd)10 matches and returns the
two-digit group; None when the token is absent. -/
def parseSegmentNumber : List Char → Option ℕ
  | [] => none
  | c :: rest =>
    match segTokenAt (c :: rest) with
    | some n => some n
    | none => parseSegmentNumber rest

/-- Zero-padded two-digit decimal rendering of n (Python format {:02d} for
the segment numbers 1..10). -/
def twoDigits (n : ℕ) : List Char :=
  [Char.ofNat (48 + n / 10 % 10), Char.ofNat (48 + n % 10)]

/-- Substitution step of find_all_segments (segment_merger.py lines 46-53):
re.sub replaces every non-overlapping occurrence of _S followed by four
digits with the template _S{:02d}10, which is immediately formatted with the
candidate segment number n; scanning resumes after each replaced match. -/
def substSeg (n : ℕ) : List Char → List Char
  | '_' :: 'S' :: a :: b :: c :: d :: rest =>
      if a.isDigit && b.isDigit && c.isDigit && d.isDigit then
        '_' :: 'S' :: (twoDigits n ++ ('1' :: '0' :: substSeg n rest))
      else
        '_' :: substSeg n ('S' :: a :: b :: c :: d :: rest)
  | x :: rest => x :: substSeg n rest
  | [] => []
  termination_by l => l.length

/-- Test for the .bz2 extension (Python str.endswith). -/
def endsBz2 (s : List Char) : Bool :=
  s.reverse.take 4 == ['2', 'z', 'b', '.']

/-- Removal of a trailing four-character extension (Python slicing [:-4]). -/
def dropBz2 (s : List Char) : List Char :=
  s.take (s.length - 4)

/-- find_all_segments (segment_merger.py lines 35-64) over an abstract
file-existence predicate fs: for each segment number 1..10 the candidate
path is derived by token substitution; it is kept if it exists, else, when
it ends in .bz2, the path with the extension stripped is kept if that
exists. -/
def findAllSegments (fs : List Char → Bool) (p : List Char) : List (List Char) :=
  (List.range' 1 10).filterMap (fun n =>
    let cand := substSeg n p
    if fs cand then some cand
    else if endsBz2 cand && fs (dropBz2 cand) then some (dropBz2 cand)
    else none)

/-- read_hsd_full (segment_merger.py lines 142-188) with auto_merge, over an
abstract decoded-tile function rd (hsd_read on a path) and file-existence
predicate fs: a path without the segment token, an empty discovery result,
or a single discovered segment all fall back to decoding the given path
alone; two or more discovered segments are merged. -/
def readHsdFull (rd : List Char → HSData) (fs : List Char → Bool) (p : List Char) :
    Except MergeErr HSData :=
  match parseSegmentNumber p with
  | none => .ok (rd p)
  | some _ =>
    let segs := findAllSegments fs p
    if segs.length = 0 then .ok (rd p)
    else if segs.length = 1 then .ok (rd p)
    else mergeSegments (segs.map rd)

/-- Truncation toward zero of a rational (the conversion a C cast or
Python's int() performs on a float). -/
def intTrunc (q : ℚ) : ℤ :=
  if 0 ≤ q then ⌊q⌋ else -⌊-q⌋

/-- Conversion of a rational to uint8 the way numpy's astype(np.uint8)
converts a float: truncation toward zero followed by reduction modulo 256. -/
def u8wrap (q : ℚ) : ℕ :=
  (intTrunc q % 256).toNat

/-- bd_scale_value (colorscale.py lines 33-62): the scalar BD ramp, a
threshold ladder returning a Python int. -/
def bd_scale_value (t : ℚ) : ℤ :=
  if 303.15 < t then 0
  else if 282.15 < t then intTrunc ((303.15 - t) * 12)
  else if 242.15 < t then intTrunc ((282.15 - t) * 2 + 100)
  else if 231.15 < t then 80
  else if 219.15 < t then 130
  else if 209.15 < t then 190
  else if 203.15 < t then 0
  else if 197.15 < t then 255
  else if 192.15 < t then 170
  else 120

/-- One element of bd_scale (colorscale.py lines 65-98): the vectorized
masked assignments of the source, applied in source order to a single
element; the 0 K missing value is excluded from every mask and keeps the
initial zero. -/
def bdScaleElem (t : ℚ) : ℕ :=
  let r : ℕ := 0
  let r := if 0 < t ∧ 303.15 < t then 0 else r
  let r := if 0 < t ∧ 282.15 < t ∧ t ≤ 303.15 then u8wrap ((303.15 - t) * 12) else r
  let r := if 0 < t ∧ 242.15 < t ∧ t ≤ 282.15 then u8wrap ((282.15 - t) * 2 + 100) else r
  let r := if 0 < t ∧ 231.15 < t ∧ t ≤ 242.15 then 80 else r
  let r := if 0 < t ∧ 219.15 < t ∧ t ≤ 231.15 then 130 else r
  let r := if 0 < t ∧ 209.15 < t ∧ t ≤ 219.15 then 190 else r
  let r := if 0 < t ∧ 203.15 < t ∧ t ≤ 209.15 then 0 else r
  let r := if 0 < t ∧ 197.15 < t ∧ t ≤ 203.15 then 255 else r
  let r := if 0 < t ∧ 192.15 < t ∧ t ≤ 197.15 then 170 else r
  let r := if 0 < t ∧ t ≤ 192.15 then 120 else r
  r

/-- bd_scale (colorscale.py lines 65-98): element ramp replicated across the
three RGB channels (np.stack). -/
def bdScale (l : List ℚ) : List (ℕ × ℕ × ℕ) :=
  l.map (fun t => (bdScaleElem t, bdScaleElem t, bdScaleElem t))

/-- color2_r (colorscale.py lines 101-120), one element. -/
def color2RElem (t : ℚ) : ℕ :=
  let r : ℕ := 0
  let r := if 0 < t ∧ 303.15 < t then 0 else r
  let r := if 0 < t ∧ 243.15 < t ∧ t ≤ 303.15 then u8wrap ((303.15 - t) * 4) else r
  let r := if 0 < t ∧ 223.15 < t ∧ t ≤ 243.15 then 50 else r
  let r := if 0 < t ∧ 203.15 < t ∧ t ≤ 223.15 then 0 else r
  let r := if 0 < t ∧ 193.15 < t ∧ t ≤ 203.15 then u8wrap ((203.15 - t) * 15 + 100) else r
  let r := if 0 < t ∧ 183.15 < t ∧ t ≤ 193.15 then u8wrap ((t - 183.15) * 25) else r
  let r := if 0 < t ∧ t ≤ 183.15 then u8wrap ((t - 173.15) * 25) else r
  r

/-- color2_g (colorscale.py lines 123-144), one element. -/
def color2GElem (t : ℚ) : ℕ :=
  let r : ℕ := 0
  let r := if 0 < t ∧ 303.15 < t then 0 else r
  let r := if 0 < t ∧ 243.15 < t ∧ t ≤ 303.15 then u8wrap ((303.15 - t) * 4) else r
  let r := if 0 < t ∧ 223.15 < t ∧ t ≤ 243.15 then u8wrap ((t - 223.15) * 6 + 120) else r
  let r := if 0 < t ∧ 213.15 < t ∧ t ≤ 223.15 then 0 else r
  let r := if 0 < t ∧ 203.15 < t ∧ t ≤ 213.15 then u8wrap ((213.15 - t) * 15 + 100) else r
  let r := if 0 < t ∧ 193.15 < t ∧ t ≤ 203.15 then 0 else r
  let r := if 0 < t ∧ 183.15 < t ∧ t ≤ 193.15 then u8wrap ((t - 183.15) * 25) else r
  let r := if 0 < t ∧ t ≤ 183.15 then u8wrap ((t - 173.15) * 25) else r
  r

/-- color2_b (colorscale.py lines 147-165), one element. -/
def color2BElem (t : ℚ) : ℕ :=
  let r : ℕ := 0
  let r := if 0 < t ∧ 303.15 < t then 0 else r
  let r := if 0 < t ∧ 243.15 < t ∧ t ≤ 303.15 then u8wrap ((303.15 - t) * 4) else r
  let r := if 0 < t ∧ 223.15 < t ∧ t ≤ 243.15 then u8wrap ((t - 223.15) * 6 + 120) else r
  let r := if 0 < t ∧ 213.15 < t ∧ t ≤ 223.15 then u8wrap ((223.15 - t) * 15 + 100) else r
  let r := if 0 < t ∧ 183.15 < t ∧ t ≤ 213.15 then 0 else r
  let r := if 0 < t ∧ t ≤ 183.15 then u8wrap ((t - 173.15) * 25) else r
  r

/-- color2_scale (colorscale.py lines 168-184). -/
def color2Scale (l : List ℚ) : List (ℕ × ℕ × ℕ) :=
  l.map (fun t => (color2RElem t, color2GElem t, color2BElem t))

/-- wvnrl_r (colorscale.py lines 187-208), one element: the red channel
starts from the mid-gray constant 128, the 0 K missing value is forced to
black first, then the masked assignments of the source are applied in
order. -/
def wvnrlRElem (t : ℚ) : ℕ :=
  let r : ℕ := 128
  let r := if ¬ 0 < t then 0 else r
  let r := if 0 < t ∧ 273.15 < t then 127 else r
  let r := if 0 < t ∧ 263.15 < t ∧ t ≤ 273.15 then u8wrap ((t - 263.15) * 10.8 + 20) else r
  let r := if 0 < t ∧ 253.15 < t ∧ t ≤ 263.15 then u8wrap (20 + (263.15 - t) * 3) else r
  let r := if 0 < t ∧ 243.15 < t ∧ t ≤ 253.15 then u8wrap (50 + (253.15 - t) * 7.8) else r
  let r := if 0 < t ∧ 233.15 < t ∧ t ≤ 243.15 then u8wrap ((127 + 243.15 - t) * 12.8) else r
  let r := if 0 < t ∧ 223.15 < t ∧ t ≤ 233.15 then 255 else r
  let r := if 0 < t ∧ t ≤ 223.15 then u8wrap (127 + (t - 203.15) * 6.4) else r
  r

/-- wvnrl_g (colorscale.py lines 211-231), one element. -/
def wvnrlGElem (t : ℚ) : ℕ :=
  let r : ℕ := 0
  let r := if 0 < t ∧ 273.15 < t then 0 else r
  let r := if 0 < t ∧ 263.15 < t ∧ t ≤ 273.15 then u8wrap ((273.15 - t) * 10) else r
  let r := if 0 < t ∧ 253.15 < t ∧ t ≤ 263.15 then u8wrap (100 + (263.15 - t) * 5) else r
  let r := if 0 < t ∧ 243.15 < t ∧ t ≤ 253.15 then u8wrap (150 + (253.15 - t) * 10.5) else r
  let r := if 0 < t ∧ 233.15 < t ∧ t ≤ 243.15 then 255 else r
  let r := if 0 < t ∧ 223.15 < t ∧ t ≤ 233.15 then u8wrap (180 + (t - 223.15) * 7.5) else r
  let r := if 0 < t ∧ t ≤ 223.15 then u8wrap ((t - 203.15) * 9) else r
  r

/-- wvnrl_b (colorscale.py lines 234-254), one element. -/
def wvnrlBElem (t : ℚ) : ℕ :=
  let r : ℕ := 0
  let r := if 0 < t ∧ 273.15 < t then 140 else r
  let r := if 0 < t ∧ 263.15 < t ∧ t ≤ 273.15 then u8wrap (140 + (273.15 - t) * 9) else r
  let r := if 0 < t ∧ 253.15 < t ∧ t ≤ 263.15 then u8wrap (230 + (263.15 - t) * 2.5) else r
  let r := if 0 < t ∧ 243.15 < t ∧ t ≤ 253.15 then 255 else r
  let r := if 0 < t ∧ 233.15 < t ∧ t ≤ 243.15 then u8wrap (127 + (t - 233.15) * 12.8) else r
  let r := if 0 < t ∧ 223.15 < t ∧ t ≤ 233.15 then u8wrap (100 + (t - 223.15) * 2.8) else r
  let r := if 0 < t ∧ t ≤ 223.15 then u8wrap ((t - 203.15) * 5) else r
  r

/-- wvnrl_scale (colorscale.py lines 257-273). -/
def wvnrlScale (l : List ℚ) : List (ℕ × ℕ × ℕ) :=
  l.map (fun t => (wvnrlRElem t, wvnrlGElem t, wvnrlBElem t))

/-- Double-decoder instance used by the concrete streams below: every 8-byte
group is interpreted as 0 (the concrete streams hold only zero bytes at the
double fields, so any faithful IEEE interpretation agrees). -/
def cF64 : List ℕ → ℚ := fun _ => 0

/-- Shared first 601 bytes (everything before the band field) of the
concrete 1060-byte header streams. -/
def cPre : List ℕ := List.replicate 601 0

/-- Shared bytes after the band field of the concrete 1060-byte header
streams: zeros up to position 1052, then len8 = 2, len9 = 2, len10 = 0. -/
def cTail : List ℕ := List.replicate 449 0 ++ [2, 0, 2, 0, 0, 0, 0, 0]

/-- Concrete 1060-byte stream with band 1: all fixed fields zero, width and
height zero, len8 = len9 = 2, len10 = 0.  The final 254-byte seek of the
layout demands positions up to 1313, beyond the end of this stream. -/
def cB1 : List ℕ := cPre ++ [1, 0] ++ cTail

/-- The same stream with the two band bytes replaced to give band 7. -/
def cB2 : List ℕ := cPre ++ [7, 0] ++ cTail

/-- The same stream with the two band bytes replaced to give band 4. -/
def cB8 : List ℕ := cPre ++ [4, 0] ++ cTail

/-- Record decoded from cB1. -/
def cRecB1 : HSData :=
  ⟨List.replicate 16 0, 0, 0, 1, 0, 0, 0, 0, 0, 0, 0, 0, 0, 0, []⟩

/-- Record decoded from cB2. -/
def cRecB2 : HSData :=
  ⟨List.replicate 16 0, 0, 0, 7, 0, 0, 0, 0, 0, 0, 0, 0, 0, 0, []⟩

/-- Record decoded from cB8. -/
def cRecB8 : HSData :=
  ⟨List.replicate 16 0, 0, 0, 4, 0, 0, 0, 0, 0, 0, 0, 0, 0, 0, []⟩

/-- Concrete complete 1316-byte stream: width 1, height 1, band 1, len8 =
len9 = 2, len10 = 0, and a full 2-byte payload [7, 0] at position 1314. -/
def cB6 : List ℕ :=
  List.replicate 287 0 ++ [1, 0, 1, 0] ++ List.replicate 310 0 ++ [1, 0] ++
  List.replicate 449 0 ++ [2, 0, 2, 0, 0, 0, 0, 0] ++ List.replicate 254 0 ++ [7, 0]

/-- Record decoded from cB6. -/
def cRec6 : HSData :=
  ⟨List.replicate 16 0, 1, 1, 1, 0, 0, 0, 0, 0, 0, 0, 0, 0, 0, [7]⟩

/-- Concrete calibration input for the lookup-table equivalence: wavelength
chosen so wl = 1 m, H = 1/2, c = 1, k = 1, slope 1, intercept 0, with a
repeated sample value. -/
def cCalib : HSData :=
  ⟨[], 1, 3, 13, 1000000, 16, 1, 0, 0, 0, 0, 1, 1/2, 1, [5, 7, 5]⟩

/-- Concrete calibration input whose single pixel has radiance
-2e-6 ≤ -(h2cc_over_wl5) = -1e-6: wavelength gives wl = 1 m, H = 1/2,
c = 1, k = 1, slope 1, intercept -2e-6, one sample of value 0. -/
def cDomain : HSData :=
  ⟨[], 1, 1, 13, 1000000, 16, 1, -(2/1000000), 0, 0, 0, 1, 1/2, 1, [0]⟩

/-- Concrete tile of width 100 (only the width matters for the mismatch
check). -/
def tileW100 : HSData := ⟨[], 100, 1, 1, 0, 0, 0, 0, 0, 0, 0, 0, 0, 0, []⟩

/-- Concrete tile of width 101. -/
def tileW101 : HSData := ⟨[], 101, 1, 1, 0, 0, 0, 0, 0, 0, 0, 0, 0, 0, []⟩

/-- Concrete tile: width 2, height 1, data of one row. -/
def tileM0 : HSData := ⟨[], 2, 1, 1, 0, 0, 0, 0, 0, 0, 0, 0, 0, 0, [10, 11]⟩

/-- Concrete tile: width 2, height 2, data of two rows. -/
def tileM1 : HSData := ⟨[], 2, 2, 1, 0, 0, 0, 0, 0, 0, 0, 0, 0, 0, [20, 21, 22, 23]⟩

/-- Concrete path without the segment token. -/
def cPath : List Char := ['x', '.', 'D', 'A', 'T']

/-- A successful get? access is in bounds. -/
theorem get?_some_lt {α : Type} {b : List α} {n : ℕ} {x : α}
    (h : b.get? n = some x) : n < b.length := by
  by_contra hn
  rw [List.get?_eq_none.mpr (Nat.le_of_not_lt hn)] at h
  exact Option.noConfusion h

/-- Inversion for getU16: a successful 2-byte read advances the position by
exactly 2 and its last byte is in bounds. -/
theorem getU16_ok {b : List ℕ} {p v q : ℕ} (H : getU16 b p = .ok (v, q)) :
    q = p + 2 ∧ p + 1 < b.length := by
  unfold getU16 at H
  split at H
  · next x0 x1 h0 h1 =>
      injection H with H'
      injection H' with Hv Hq
      exact ⟨Hq.symm, get?_some_lt h1⟩
  · exact Except.noConfusion H

/-- Inversion for getU32: a successful 4-byte read advances the position by
exactly 4 and its last byte is in bounds. -/
theorem getU32_ok {b : List ℕ} {p v q : ℕ} (H : getU32 b p = .ok (v, q)) :
    q = p + 4 ∧ p + 3 < b.length := by
  unfold getU32 at H
  split at H
  · next x0 x1 x2 x3 h0 h1 h2 h3 =>
      injection H with H'
      injection H' with Hv Hq
      exact ⟨Hq.symm, get?_some_lt h3⟩
  · exact Except.noConfusion H

/-- Inversion for getChunk: a successful n-byte read advances the position
by exactly n, the bytes were available, and the chunk is the slice. -/
theorem getChunk_ok {b : List ℕ} {p n q : ℕ} {l : List ℕ}
    (H : getChunk b p n = .ok (l, q)) :
    q = p + n ∧ n ≤ b.length - p ∧ l = (b.drop p).take n := by
  unfold getChunk at H
  split at H
  · next hle =>
      injection H with H'
      injection H' with Hl Hq
      exact ⟨Hq.symm, hle, Hl.symm⟩
  · exact Except.noConfusion H

/-- Inversion for getF64: a successful double read advances the position by
exactly 8 and decodes the 8-byte slice. -/
theorem getF64_ok {f64 : List ℕ → ℚ} {b : List ℕ} {p q : ℕ} {x : ℚ}
    (H : getF64 f64 b p = .ok (x, q)) :
    q = p + 8 ∧ 8 ≤ b.length - p ∧ x = f64 ((b.drop p).take 8) := by
  unfold getF64 at H
  split at H
  · exact Except.noConfusion H
  · next l q' hchunk =>
      injection H with H'
      injection H' with Hx Hq
      obtain ⟨hq, hle, hl⟩ := getChunk_ok hchunk
      exact ⟨Hq ▸ hq, hle, by rw [← Hx, hl]⟩

/-- Inversion for the conditional calibration block: it always advances the
position by exactly 112 bytes, and for band at most 6 it returns six zero
constants. -/
theorem readConsts_ok {f64 : List ℕ → ℚ} {b : List ℕ} {band p q : ℕ}
    {cs : ℚ × ℚ × ℚ × ℚ × ℚ × ℚ}
    (H : readConsts f64 b band p = .ok (cs, q)) :
    q = p + 112 ∧ (band ≤ 6 → cs = (0, 0, 0, 0, 0, 0)) := by
  unfold readConsts at H
  split_ifs at H with hb
  · split at H
    · exact Except.noConfusion H
    · next c0 p1 h1 =>
      split at H
      · exact Except.noConfusion H
      · next c1 p2 h2 =>
        split at H
        · exact Except.noConfusion H
        · next c2 p3 h3 =>
          split at H
          · exact Except.noConfusion H
          · next cc p4 h4 =>
            split at H
            · exact Except.noConfusion H
            · next hh p5 h5 =>
              split at H
              · exact Except.noConfusion H
              · next kk p6 h6 =>
                injection H with H'
                injection H' with Hcs Hq
                obtain ⟨e1, -⟩ := getF64_ok h1
                obtain ⟨e2, -⟩ := getF64_ok h2
                obtain ⟨e3, -⟩ := getF64_ok h3
                obtain ⟨e4, -⟩ := getF64_ok h4
                obtain ⟨e5, -⟩ := getF64_ok h5
                obtain ⟨e6, -⟩ := getF64_ok h6
                refine ⟨by omega, fun h6' => absurd h6' (by omega)⟩
  · injection H with H'
    injection H' with Hcs Hq
    exact ⟨by omega, fun _ => Hcs.symm⟩

/-- Master inversion for a successful header parse: the band field was read
at absolute position 601, bands at most 6 leave all six radiometric
constants at zero, and the payload position is 1310 plus the three
variable-length fields, which are read at fixed offsets that do not depend
on the band (both branches of the conditional block consume 112 bytes). -/
theorem hsdReadHeader_inv {f64 : List ℕ → ℚ} {b : List ℕ} {h : HSData} {pf : ℕ}
    (H : hsdReadHeader f64 b = .ok (h, pf)) :
    getU16 b 601 = .ok (h.band, 603) ∧
    (h.band ≤ 6 → h.c0 = 0 ∧ h.c1 = 0 ∧ h.c2 = 0 ∧ h.c = 0 ∧ h.H = 0 ∧ h.k = 0) ∧
    ∃ l8 l9 l10,
      getU16 b 1052 = .ok (l8, 1054) ∧
      getU16 b (1052 + l8) = .ok (l9, 1054 + l8) ∧
      getU32 b (1052 + l8 + l9) = .ok (l10, 1056 + l8 + l9) ∧
      pf = 1310 + l8 + l9 + l10 := by
  unfold hsdReadHeader at H
  split at H
  · exact Except.noConfusion H
  next width p1 heq1 =>
  split at H
  · exact Except.noConfusion H
  next height p2 heq2 =>
  split at H
  · exact Except.noConfusion H
  next band p3 heq3 =>
  split at H
  · exact Except.noConfusion H
  next wavelength p4 heq4 =>
  split at H
  · exact Except.noConfusion H
  next bitn p5 heq5 =>
  split at H
  · exact Except.noConfusion H
  next slope p6 heq6 =>
  split at H
  · exact Except.noConfusion H
  next intc p7 heq7 =>
  split at H
  · exact Except.noConfusion H
  next cs p8 heq8 =>
  split at H
  · exact Except.noConfusion H
  next len8 p9 heq9 =>
  split at H
  · exact Except.noConfusion H
  next len9 p10 heq10 =>
  split at H
  · exact Except.noConfusion H
  next len10 p11 heq11 =>
  injection H with H'
  injection H' with Hrec Hq
  subst Hrec
  obtain ⟨e1, f1⟩ := getU16_ok heq1
  obtain ⟨e2, f2⟩ := getU16_ok heq2
  obtain ⟨e3, f3⟩ := getU16_ok heq3
  obtain ⟨e4, -, -⟩ := getF64_ok heq4
  obtain ⟨e5, f5⟩ := getU16_ok heq5
  obtain ⟨e6, -, -⟩ := getF64_ok heq6
  obtain ⟨e7, -, -⟩ := getF64_ok heq7
  obtain ⟨e8, fcs⟩ := readConsts_ok heq8
  obtain ⟨e9, f9⟩ := getU16_ok heq9
  obtain ⟨e10, f10⟩ := getU16_ok heq10
  obtain ⟨e11, f11⟩ := getU32_ok heq11
  have hp2 : p2 + 41 + 269 = 601 := by omega
  have hp3 : p3 = 603 := by omega
  rw [hp2, hp3] at heq3
  have hp8 : p8 + 1 + 47 + 258 + 1 = 1052 := by omega
  have hp9 : p9 = 1054 := by omega
  rw [hp8, hp9] at heq9
  have hp9' : p9 + len8 - 2 = 1052 + len8 := by omega
  have hp10 : p10 = 1054 + len8 := by omega
  rw [hp9', hp10] at heq10
  have hp10' : p10 + len9 - 2 = 1052 + len8 + len9 := by omega
  have hp11 : p11 = 1056 + len8 + len9 := by omega
  rw [hp10', hp11] at heq11
  refine ⟨heq3, ?_, len8, len9, len10, heq9, heq10, heq11, by omega⟩
  intro hb6
  have hcs := fcs hb6
  simp [hcs]

/-- Inversion for a successful full decode: the header parse succeeded, the
whole payload was in bounds, and the result is the header record with the
decoded payload attached. -/
theorem hsdRead_inv {f64 : List ℕ → ℚ} {b : List ℕ} {hs : HSData}
    (H : hsdRead f64 b = .ok hs) :
    ∃ h p, hsdReadHeader f64 b = .ok (h, p) ∧
      h.width * h.height * 2 ≤ b.length - p ∧
      hs = { h with data := u16pairs ((b.drop p).take (h.width * h.height * 2)) } := by
  unfold hsdRead at H
  split at H
  · exact Except.noConfusion H
  next h p heq =>
  split at H
  · exact Except.noConfusion H
  next raw q hchunk =>
  injection H with H'
  obtain ⟨-, hle, hraw⟩ := getChunk_ok hchunk
  exact ⟨h, p, heq, hle, by rw [← H', hraw]⟩

/-- Length of the uint16 decoding: half the byte count. -/
theorem u16pairs_length (l : List ℕ) : (u16pairs l).length = l.length / 2 := by
  simp [u16pairs]

/-- getU16 reads only the two bytes at its position: equal bytes there give
equal results on different streams. -/
theorem getU16_congr {b1 b2 : List ℕ} {p : ℕ}
    (h0 : b1.get? p = b2.get? p) (h1 : b1.get? (p + 1) = b2.get? (p + 1)) :
    getU16 b1 p = getU16 b2 p := by
  unfold getU16
  rw [h0, h1]

/-- getU32 reads only the four bytes at its position. -/
theorem getU32_congr {b1 b2 : List ℕ} {p : ℕ}
    (h0 : b1.get? p = b2.get? p) (h1 : b1.get? (p + 1) = b2.get? (p + 1))
    (h2 : b1.get? (p + 2) = b2.get? (p + 2)) (h3 : b1.get? (p + 3) = b2.get? (p + 3)) :
    getU32 b1 p = getU32 b2 p := by
  unfold getU32
  rw [h0, h1, h2, h3]

/-- C5: for any two byte streams that agree everywhere except possibly at
the two band bytes (absolute positions 601 and 602), successful header
parses of both reach the identical absolute payload offset: the band > 6
branch reads and skips 24+24+24+40 = 112 bytes while the other branch skips
112 bytes of padding, so the variable-length tail fields are read at the
same positions in both streams and the payload begins at the same place. -/
theorem payload_offset_band_invariant (f64 : List ℕ → ℚ) (b1 b2 : List ℕ)
    (h1 h2 : HSData) (p1 p2 : ℕ)
    (hagree : ∀ i, i ≠ 601 → i ≠ 602 → b1.get? i = b2.get? i)
    (H1 : hsdReadHeader f64 b1 = .ok (h1, p1))
    (H2 : hsdReadHeader f64 b2 = .ok (h2, p2)) :
    p1 = p2 := by
  obtain ⟨-, -, l8, l9, l10, a52, a9, a10, apf⟩ := hsdReadHeader_inv H1
  obtain ⟨-, -, m8, m9, m10, b52, b9, b10, bpf⟩ := hsdReadHeader_inv H2
  have e8 : l8 = m8 := by
    have hc : getU16 b1 1052 = getU16 b2 1052 :=
      getU16_congr (hagree 1052 (by omega) (by omega)) (hagree 1053 (by omega) (by omega))
    rw [a52, b52] at hc
    simpa using hc
  subst e8
  have e9 : l9 = m9 := by
    have hc : getU16 b1 (1052 + l8) = getU16 b2 (1052 + l8) :=
      getU16_congr (hagree (1052 + l8) (by omega) (by omega))
        (hagree (1052 + l8 + 1) (by omega) (by omega))
    rw [a9, b9] at hc
    simpa using hc
  subst e9
  have e10 : l10 = m10 := by
    have hc : getU32 b1 (1052 + l8 + l9) = getU32 b2 (1052 + l8 + l9) :=
      getU32_congr (hagree _ (by omega) (by omega)) (hagree _ (by omega) (by omega))
        (hagree _ (by omega) (by omega)) (hagree _ (by omega) (by omega))
    rw [a10, b10] at hc
    simpa using hc
  subst e10
  omega

/-- Two lists differing only in a middle section of equal length agree at
every index outside that section. -/
theorem get?_middle_congr {α : Type} (pre mid1 mid2 post : List α)
    (hm : mid1.length = mid2.length) (i : ℕ)
    (hi : i < pre.length ∨ pre.length + mid1.length ≤ i) :
    (pre ++ mid1 ++ post).get? i = (pre ++ mid2 ++ post).get? i := by
  rcases hi with hlt | hge
  · rw [List.append_assoc, List.append_assoc, List.get?_append hlt, List.get?_append hlt]
  · rw [List.append_assoc, List.append_assoc,
      List.get?_append_right (by omega : pre.length ≤ i),
      List.get?_append_right (by omega : pre.length ≤ i),
      List.get?_append_right (by omega : mid1.length ≤ i - pre.length),
      List.get?_append_right (by omega : mid2.length ≤ i - pre.length), hm]

set_option maxRecDepth 10000 in
/-- C5 witness: the two concrete 1060-byte streams cB1 (band 1) and cB2
(band 7) differ only at the band bytes, and both header parses place the
payload at the same absolute offset (1314). -/
theorem payload_offset_band_invariant_witness :
    (hsdReadHeader cF64 cB1).map Prod.snd = (hsdReadHeader cF64 cB2).map Prod.snd := by
  have hA : hsdReadHeader cF64 cB1 = .ok (cRecB1, 1314) := rfl
  have hB : hsdReadHeader cF64 cB2 = .ok (cRecB2, 1314) := rfl
  have hagree : ∀ i, i ≠ 601 → i ≠ 602 → cB1.get? i = cB2.get? i := by
    intro i hi1 hi2
    refine get?_middle_congr cPre [1, 0] [7, 0] cTail rfl i ?_
    have hl : cPre.length = 601 := by simp [cPre]
    rw [hl]
    simp only [List.length_cons, List.length_nil]
    omega
  have hp := payload_offset_band_invariant cF64 cB1 cB2 cRecB1 cRecB2 1314 1314 hagree hA hB
  rw [hA, hB]
  exact congrArg Except.ok hp

set_option maxRecDepth 10000 in
/-- C6 counterexample: the 1060-byte stream cB1 is truncated with respect to
the fixed layout (the final 254-byte seek demands positions up to 1313 and
the parse ends at position 1314, past the end of the stream), yet decoding
returns a record instead of failing: the zero-pixel payload read succeeds
even beyond the end of the file, as in the Python source, whose seeks are
never bounds-checked. -/
theorem truncated_stream_accepted :
    hsdReadHeader cF64 cB1 = .ok (cRecB1, 1314) ∧
    cB1.length = 1060 ∧ 1060 < 1314 ∧
    hsdRead cF64 cB1 = .ok cRecB1 :=
  ⟨rfl, rfl, by norm_num, rfl⟩

/-- C6 (amended): a successful decode guarantees that every fixed-layout
field read and the entire width*height*2-byte payload were in bounds, and
the returned raw array is exactly the uint16 decoding of the in-bounds
payload slice, of length width*height: decoding never zero-fills missing
header fields or samples.  (Truncation that only shortens seek-skipped
padding is not detected when the payload is empty, per the counterexample.) -/
theorem decode_success_payload_in_bounds (f64 : List ℕ → ℚ) (b : List ℕ) (hs : HSData)
    (H : hsdRead f64 b = .ok hs) :
    hs.data.length = hs.width * hs.height ∧
    ∃ h p, hsdReadHeader f64 b = .ok (h, p) ∧
      hs.width * hs.height * 2 ≤ b.length - p ∧
      hs.data = u16pairs ((b.drop p).take (hs.width * hs.height * 2)) := by
  obtain ⟨h, p, hhdr, hle, hrec⟩ := hsdRead_inv H
  have hw : hs.width = h.width := by rw [hrec]
  have hh : hs.height = h.height := by rw [hrec]
  have hd : hs.data = u16pairs ((b.drop p).take (h.width * h.height * 2)) := by rw [hrec]
  refine ⟨?_, h, p, hhdr, ?_, ?_⟩
  · rw [hd, u16pairs_length, List.length_take, List.length_drop, hw, hh]
    omega
  · rw [hw, hh]
    exact hle
  · rw [hd, hw, hh]

set_option maxRecDepth 10000 in
/-- C6 amended-claim witness: the complete concrete stream cB6 decodes to a
1-by-1 tile whose single sample is exactly the in-bounds payload bytes. -/
theorem decode_success_payload_in_bounds_witness :
    cRec6.data.length = cRec6.width * cRec6.height ∧
    ∃ h p, hsdReadHeader cF64 cB6 = .ok (h, p) ∧
      cRec6.width * cRec6.height * 2 ≤ cB6.length - p ∧
      cRec6.data = u16pairs ((cB6.drop p).take (cRec6.width * cRec6.height * 2)) :=
  decode_success_payload_in_bounds cF64 cB6 cRec6 rfl

/-- C8: a decoded tile whose band is 4, 5 or 6 reaches the calibration path
with all-zero radiometric constants (the decoder stores constants only for
band > 6), so the calibration's pure-Python division H*c/(k*wl) has a zero
denominator and calibration fails instead of producing a temperature
array. -/
theorem band4to6_calibration_fails (f64 : List ℕ → ℚ) (b : List ℕ) (hs : HSData)
    (H : hsdRead f64 b = .ok hs) (h3 : 3 < hs.band) (h6 : hs.band ≤ 6) :
    hsdCalibration hs = .error .zeroDivision := by
  obtain ⟨h, p, hhdr, -, hrec⟩ := hsdRead_inv H
  have hband : hs.band = h.band := by rw [hrec]
  obtain ⟨-, hzero, -⟩ := hsdReadHeader_inv hhdr
  have hk : hs.k = 0 := by
    have hz := hzero (by omega)
    rw [hrec]
    exact hz.2.2.2.2.2
  simp [hsdCalibration, hk]

set_option maxRecDepth 10000 in
/-- C8 witness: the concrete band-4 stream cB8 decodes successfully and its
calibration fails with the zero-division condition. -/
theorem band4to6_calibration_fails_witness :
    hsdCalibration cRecB8 = .error .zeroDivision :=
  band4to6_calibration_fails cF64 cB8 cRecB8 rfl (by decide) (by decide)

/-- Lookup in an association list built by pairing each key with its image
under f finds exactly f of any member key (the Python dict built over
np.unique always contains every sample value). -/
theorem lookup_map_self (f : ℕ → ℝ) :
    ∀ (u : List ℕ) (v : ℕ), v ∈ u →
      (u.map (fun x => (x, f x))).lookup v = some (f v) := by
  intro u
  induction u with
  | nil => intro v h; cases h
  | cons a t ih =>
    intro v hv
    simp only [List.map_cons, List.lookup]
    cases hba : (v == a) with
    | true =>
      have : v = a := by simpa using hba
      subst this
      rfl
    | false =>
      have hne : v ≠ a := by simpa using hba
      have : v ∈ t := by
        rcases List.mem_cons.mp hv with h | h
        · exact absurd h hne
        · exact h
      exact ih v this

/-- Shared helper: a successful calibration output is exactly the direct
per-pixel Planck inversion mapped over the raw data. -/
theorem hsdCalibration_ok_map (hs : HSData) (l : List ℝ)
    (H : hsdCalibration hs = .ok l) :
    l = hs.data.map (planckDirectSpec hs) := by
  simp only [hsdCalibration] at H
  split_ifs at H with hkw
  injection H with H'
  subst H'
  refine List.map_congr_left ?_
  intro v hv
  have hmem : v ∈ hs.data.dedup := List.mem_dedup.mpr hv
  rw [lookup_map_self _ _ v hmem]
  simp only [Option.getD_some]
  unfold planckDirectSpec
  congr 2
  exact_mod_cast (by ring : (2 * hs.H * hs.c * hs.c / (hs.wavelength * (1 / 1000000)) ^ 5
      * (1 / 1000000) / (hs.slope * (v : ℚ) + hs.intc) + 1 : ℚ) =
    (2 * hs.H * hs.c ^ 2) / (hs.wavelength * (1 / 1000000)) ^ 5 * (1 / 1000000)
      / (hs.slope * (v : ℚ) + hs.intc) + 1)

/-- C1: whenever the lookup-table calibration succeeds, its output is
element-wise equal to applying the direct, uncached Planck inversion
T = hc_over_k_wl / ln(h2cc_over_wl5/(slope*v + intercept) + 1) to each
pixel value individually: the LUT-optimized and the naive per-pixel
calibration compute the same function of the input record. -/
theorem calib_lut_eq_direct (hs : HSData) (l : List ℝ)
    (H : hsdCalibration hs = .ok l) :
    l = hs.data.map (planckDirectSpec hs) :=
  hsdCalibration_ok_map hs l H

/-- C1 witness: a concrete calibration with a repeated sample value. -/
theorem calib_lut_eq_direct_witness :
    (hsdCalibration cCalib).toOption.getD [] = cCalib.data.map (planckDirectSpec cCalib) := by
  cases hres : hsdCalibration cCalib with
  | error e =>
    exfalso
    simp only [hsdCalibration] at hres
    rw [if_neg (by norm_num [cCalib] :
        ¬ ((cCalib.k * (cCalib.wavelength * (1 / 1000000)) : ℚ) = 0))] at hres
    exact Except.noConfusion hres
  | ok l =>
    have hmap := calib_lut_eq_direct cCalib l hres
    simpa using hmap

/-- C2 (code-bug evaluation): a concrete pixel whose radiance is below
-(h2cc_over_wl5) (the log argument lies in (0,1)) is not absorbed as the
0 K missing-data sentinel: the calibration returns the raw Planck quotient,
which is strictly negative.  (For radiance strictly between -(h2cc_over_wl5)
and 0 the float code propagates NaN from the log of a negative number; no
branch maps the domain failure to 0 K.) -/
theorem calib_negative_radiance_not_sentinel :
    cDomain.slope * (0 : ℚ) + cDomain.intc ≤ -(h2ccOverWl5 cDomain) ∧
    hsdCalibration cDomain = .ok [planckDirectSpec cDomain 0] ∧
    planckDirectSpec cDomain 0 < 0 := by
  refine ⟨by norm_num [cDomain, h2ccOverWl5], ?_, ?_⟩
  · cases hres : hsdCalibration cDomain with
    | error e =>
      exfalso
      simp only [hsdCalibration] at hres
      rw [if_neg (by norm_num [cDomain] :
          ¬ ((cDomain.k * (cDomain.wavelength * (1 / 1000000)) : ℚ) = 0))] at hres
      exact Except.noConfusion hres
    | ok l =>
      have hmap := hsdCalibration_ok_map cDomain l hres
      rw [hmap]
      rfl
  · simp only [planckDirectSpec]
    apply div_neg_of_pos_of_neg
    · norm_num [cDomain]
    · apply Real.log_neg
      · norm_num [cDomain]
      · norm_num [cDomain]

/-- The width check succeeds exactly when every segment in the list has the
given width. -/
theorem widthsOk_iff (w : ℕ) (l : List HSData) :
    widthsOk w l = true ↔ ∀ s ∈ l, s.width = w := by
  induction l with
  | nil => simp [widthsOk]
  | cons a t ih => simp [widthsOk, ih]

/-- C3: merging a list of two or more decoded tiles in which some tile's
width differs from the first tile's width fails with the width-mismatch
condition and returns no merged record. -/
theorem merge_width_mismatch_error (s0 : HSData) (rest : List HSData)
    (h : ∃ s ∈ rest, s.width ≠ s0.width) :
    mergeSegments (s0 :: rest) = .error .segmentWidthMismatch := by
  obtain ⟨s, hs, hw⟩ := h
  have hno : ¬ (widthsOk s0.width rest = true) := by
    rw [widthsOk_iff]
    push_neg
    exact ⟨s, hs, hw⟩
  simp only [mergeSegments]
  rw [if_neg hno]

/-- C3 witness: tiles of widths 100 and 101 (the spec's own example). -/
theorem merge_width_mismatch_error_witness :
    mergeSegments [tileW100, tileW101] = .error .segmentWidthMismatch :=
  merge_width_mismatch_error tileW100 [tileW101]
    ⟨tileW101, by simp, by decide⟩

/-- Offset recurrence: the rows before segment j+1 of a cons list are the
head's height plus the rows before segment j of the tail. -/
theorem heightsBefore_cons_succ (s : HSData) (t : List HSData) (j : ℕ) :
    heightsBefore (s :: t) (j + 1) = s.height + heightsBefore t j := by
  simp [heightsBefore, List.take_succ_cons]

/-- Row extraction from a vertical concatenation: row r of the flattened
raster belongs to the segment whose cumulative height range contains r, at
local row r minus the segment's offset. -/
theorem flatten_row (w : ℕ) :
    ∀ (l : List HSData), (∀ s ∈ l, s.data.length = w * s.height) →
      ∀ j (hj : j < l.length) r, heightsBefore l j ≤ r → r < heightsBefore l (j + 1) →
        rowOf ((l.map HSData.data).flatten) w r =
          rowOf (l.get ⟨j, hj⟩).data w (r - heightsBefore l j) := by
  intro l
  induction l with
  | nil => intro _ j hj; exact absurd hj (Nat.not_lt_zero j)
  | cons s t ih =>
    intro hlen j hj r hlo hhi
    have hs : s.data.length = w * s.height := hlen s (List.mem_cons_self s t)
    cases j with
    | zero =>
      have h1 : heightsBefore (s :: t) 1 = s.height := by
        rw [heightsBefore_cons_succ]
        simp [heightsBefore]
      rw [h1] at hhi
      have h0 : heightsBefore (s :: t) 0 = 0 := by simp [heightsBefore]
      rw [h0, Nat.sub_zero]
      simp only [List.map_cons, List.flatten_cons, List.get]
      unfold rowOf
      rw [List.drop_append_eq_append_drop, List.take_append_eq_append_take]
      have hmul : (r + 1) * w ≤ s.height * w := Nat.mul_le_mul_right w hhi
      rw [Nat.succ_mul] at hmul
      have hlen1 : w ≤ (s.data.drop (r * w)).length := by
        rw [List.length_drop, hs]
        have hcomm : w * s.height = s.height * w := Nat.mul_comm w s.height
        omega
      rw [Nat.sub_eq_zero_of_le hlen1, List.take_zero, List.append_nil]
    | succ j =>
      have hcons : heightsBefore (s :: t) (j + 1) = s.height + heightsBefore t j :=
        heightsBefore_cons_succ s t j
      have hcons2 : heightsBefore (s :: t) (j + 2) = s.height + heightsBefore t (j + 1) :=
        heightsBefore_cons_succ s t (j + 1)
      rw [hcons] at hlo
      rw [hcons2] at hhi
      have hr : s.height ≤ r := by omega
      simp only [List.map_cons, List.flatten_cons, List.get]
      unfold rowOf
      rw [List.drop_append_eq_append_drop]
      have hdata : s.data.drop (r * w) = [] := by
        apply List.drop_eq_nil_of_le
        rw [hs]
        calc w * s.height = s.height * w := Nat.mul_comm w s.height
          _ ≤ r * w := Nat.mul_le_mul_right w hr
      rw [hdata, List.nil_append]
      have harg : r * w - s.data.length = (r - s.height) * w := by
        rw [Nat.sub_mul, hs, Nat.mul_comm w s.height]
      rw [harg]
      have ihlen : ∀ s' ∈ t, s'.data.length = w * s'.height :=
        fun s' h => hlen s' (List.mem_cons_of_mem _ h)
      have hj' : j < t.length := Nat.lt_of_succ_lt_succ (by simpa using hj)
      have hstep := ih ihlen j hj' (r - s.height) (by omega) (by omega)
      unfold rowOf at hstep
      rw [hcons, show r - (s.height + heightsBefore t j) = r - s.height - heightsBefore t j
        from by omega]
      exact hstep

/-- C4: merging N decoded tiles of equal width w (heights h1..hN, given in
ascending segment-index order) yields a mosaic of width w and height
h1+...+hN whose raw array is the concatenation of the constituent raw
arrays in that order — row r of the mosaic equals row r - offset_j of tile
j for r in tile j's cumulative range — and whose satellite name, band,
wavelength, bit depth, slope, intercept and radiometric constants are
copied from the first tile. -/
theorem merge_concat_law (s0 : HSData) (rest : List HSData)
    (hw : ∀ s ∈ s0 :: rest, s.width = s0.width)
    (hlen : ∀ s ∈ s0 :: rest, s.data.length = s.width * s.height) :
    ∃ m, mergeSegments (s0 :: rest) = .ok m ∧
      m.width = s0.width ∧
      m.height = ((s0 :: rest).map HSData.height).sum ∧
      m.data = ((s0 :: rest).map HSData.data).flatten ∧
      m.satellite_name = s0.satellite_name ∧
      m.band = s0.band ∧ m.wavelength = s0.wavelength ∧ m.bit_num = s0.bit_num ∧
      m.slope = s0.slope ∧ m.intc = s0.intc ∧ m.c0 = s0.c0 ∧ m.c1 = s0.c1 ∧
      m.c2 = s0.c2 ∧ m.c = s0.c ∧ m.H = s0.H ∧ m.k = s0.k ∧
      ∀ j (hj : j < (s0 :: rest).length) r,
        heightsBefore (s0 :: rest) j ≤ r →
        r < heightsBefore (s0 :: rest) (j + 1) →
        rowOf m.data s0.width r =
          rowOf ((s0 :: rest).get ⟨j, hj⟩).data s0.width
            (r - heightsBefore (s0 :: rest) j) := by
  have hok : widthsOk s0.width rest = true := by
    rw [widthsOk_iff]
    intro s hsm
    exact hw s (List.mem_cons_of_mem _ hsm)
  refine ⟨⟨s0.satellite_name, s0.width, ((s0 :: rest).map HSData.height).sum,
      s0.band, s0.wavelength, s0.bit_num, s0.slope, s0.intc, s0.c0, s0.c1, s0.c2,
      s0.c, s0.H, s0.k, ((s0 :: rest).map HSData.data).flatten⟩,
    ?_, rfl, rfl, rfl, rfl, rfl, rfl, rfl, rfl, rfl, rfl, rfl, rfl, rfl, rfl, rfl, ?_⟩
  · simp only [mergeSegments]
    rw [if_pos hok]
  · intro j hj r hlo hhi
    refine flatten_row s0.width (s0 :: rest) ?_ j hj r hlo hhi
    intro s hsm
    rw [hlen s hsm, hw s hsm]

/-- C4 witness: two concrete tiles of width 2 with heights 1 and 2. -/
theorem merge_concat_law_witness :
    ∃ m, mergeSegments [tileM0, tileM1] = .ok m ∧
      m.width = tileM0.width ∧
      m.height = (([tileM0, tileM1]).map HSData.height).sum ∧
      m.data = (([tileM0, tileM1]).map HSData.data).flatten ∧
      m.satellite_name = tileM0.satellite_name ∧
      m.band = tileM0.band ∧ m.wavelength = tileM0.wavelength ∧
      m.bit_num = tileM0.bit_num ∧
      m.slope = tileM0.slope ∧ m.intc = tileM0.intc ∧ m.c0 = tileM0.c0 ∧
      m.c1 = tileM0.c1 ∧
      m.c2 = tileM0.c2 ∧ m.c = tileM0.c ∧ m.H = tileM0.H ∧ m.k = tileM0.k ∧
      ∀ j (hj : j < ([tileM0, tileM1]).length) r,
        heightsBefore [tileM0, tileM1] j ≤ r →
        r < heightsBefore [tileM0, tileM1] (j + 1) →
        rowOf m.data tileM0.width r =
          rowOf (([tileM0, tileM1]).get ⟨j, hj⟩).data tileM0.width
            (r - heightsBefore [tileM0, tileM1] j) := by
  refine merge_concat_law tileM0 [tileM1] ?_ ?_ <;>
  · intro s hs
    rcases List.mem_cons.mp hs with h | h
    · subst h; rfl
    · rcases List.mem_cons.mp h with h2 | h2
      · subst h2; rfl
      · cases h2

/-- C9: when the path lacks the two-digit segment token, or sibling
discovery finds no segment files, or discovery finds exactly one, the
full-read operation returns the single decoded tile unmodified; the absence
of siblings is a fallback, not an error. -/
theorem single_tile_fallback (rd : List Char → HSData) (fs : List Char → Bool)
    (p : List Char)
    (h : parseSegmentNumber p = none ∨ findAllSegments fs p = [] ∨
      (findAllSegments fs p).length = 1) :
    readHsdFull rd fs p = .ok (rd p) := by
  unfold readHsdFull
  cases hp : parseSegmentNumber p with
  | none => rfl
  | some n =>
    rcases h with h | h | h
    · rw [hp] at h
      exact Option.noConfusion h
    · simp [h]
    · simp [h]

/-- C9 witness: a token-free path with no files present decodes to the
single tile. -/
theorem single_tile_fallback_witness :
    readHsdFull (fun _ => tileW100) (fun _ => false) cPath = .ok tileW100 :=
  single_tile_fallback (fun _ => tileW100) (fun _ => false) cPath (Or.inl rfl)

/-- BD element ramp maps 0 K to 0: every mask excludes the invalid value. -/
theorem bdScaleElem_zero : bdScaleElem 0 = 0 := by norm_num [bdScaleElem]

/-- Color2 red element ramp maps 0 K to 0. -/
theorem color2RElem_zero : color2RElem 0 = 0 := by norm_num [color2RElem]

/-- Color2 green element ramp maps 0 K to 0. -/
theorem color2GElem_zero : color2GElem 0 = 0 := by norm_num [color2GElem]

/-- Color2 blue element ramp maps 0 K to 0. -/
theorem color2BElem_zero : color2BElem 0 = 0 := by norm_num [color2BElem]

/-- Water-vapor red element ramp maps 0 K to 0: the invalid mask overrides
the mid-gray default 128 with black before any range assignment. -/
theorem wvnrlRElem_zero : wvnrlRElem 0 = 0 := by norm_num [wvnrlRElem]

/-- Water-vapor green element ramp maps 0 K to 0. -/
theorem wvnrlGElem_zero : wvnrlGElem 0 = 0 := by norm_num [wvnrlGElem]

/-- Water-vapor blue element ramp maps 0 K to 0. -/
theorem wvnrlBElem_zero : wvnrlBElem 0 = 0 := by norm_num [wvnrlBElem]

/-- C7: in every temperature array, an element equal to exactly 0 K renders
as the pure-black RGB triplet under the BD, Color2 and water-vapor ramps —
including the water-vapor red channel, whose default outside all matched
ranges is otherwise the mid-gray constant 128. -/
theorem zero_kelvin_renders_black (l : List ℚ) (i : ℕ) (h : l.get? i = some 0) :
    (bdScale l).get? i = some (0, 0, 0) ∧
    (color2Scale l).get? i = some (0, 0, 0) ∧
    (wvnrlScale l).get? i = some (0, 0, 0) := by
  refine ⟨?_, ?_, ?_⟩ <;>
    simp only [bdScale, color2Scale, wvnrlScale, List.get?_map, h, Option.map_some',
      bdScaleElem_zero, color2RElem_zero, color2GElem_zero, color2BElem_zero,
      wvnrlRElem_zero, wvnrlGElem_zero, wvnrlBElem_zero]

/-- C7 witness: the singleton 0 K field. -/
theorem zero_kelvin_renders_black_witness :
    (bdScale [0]).get? 0 = some (0, 0, 0) ∧
    (color2Scale [0]).get? 0 = some (0, 0, 0) ∧
    (wvnrlScale [0]).get? 0 = some (0, 0, 0) :=
  zero_kelvin_renders_black [0] 0 rfl

/-- For arguments in [0, 256), the uint8 cast of numpy coincides with the
plain int truncation of Python: no wraparound occurs. -/
theorem u8wrap_eq_intTrunc {q : ℚ} (h0 : 0 ≤ q) (h256 : q < 256) :
    (u8wrap q : ℤ) = intTrunc q := by
  unfold u8wrap intTrunc
  rw [if_pos h0]
  have hfl0 : (0 : ℤ) ≤ ⌊q⌋ := Int.le_floor.mpr (by exact_mod_cast h0)
  have hfl256 : ⌊q⌋ < 256 := Int.floor_lt.mpr (by exact_mod_cast h256)
  rw [Int.emod_eq_of_lt hfl0 hfl256]
  exact Int.toNat_of_nonneg hfl0

/-- Truncation of a nonnegative rational is nonnegative. -/
theorem intTrunc_nonneg {q : ℚ} (h : 0 ≤ q) : 0 ≤ intTrunc q := by
  unfold intTrunc
  rw [if_pos h]
  exact Int.le_floor.mpr (by exact_mod_cast h)

set_option maxHeartbeats 1000000 in
/-- On positive temperatures the vectorized BD element equals the scalar BD
ramp (as integers): on each band the masked assignment and the threshold
ladder pick the same value, and the two linear bands stay inside [0, 256),
so the uint8 store does not wrap. -/
theorem bd_elem_eq_scalar_val (t : ℚ) (ht : 0 < t) :
    (bdScaleElem t : ℤ) = bd_scale_value t := by
  by_cases c1 : (303.15 : ℚ) < t
  · simp only [bdScaleElem, bd_scale_value]
    rw [if_neg (show ¬((0:ℚ) < t ∧ t ≤ (192.15:ℚ)) from by rintro ⟨-, h⟩; linarith),
      if_neg (show ¬((0:ℚ) < t ∧ (192.15:ℚ) < t ∧ t ≤ (197.15:ℚ)) from by rintro ⟨-, -, h⟩; linarith),
      if_neg (show ¬((0:ℚ) < t ∧ (197.15:ℚ) < t ∧ t ≤ (203.15:ℚ)) from by rintro ⟨-, -, h⟩; linarith),
      if_neg (show ¬((0:ℚ) < t ∧ (203.15:ℚ) < t ∧ t ≤ (209.15:ℚ)) from by rintro ⟨-, -, h⟩; linarith),
      if_neg (show ¬((0:ℚ) < t ∧ (209.15:ℚ) < t ∧ t ≤ (219.15:ℚ)) from by rintro ⟨-, -, h⟩; linarith),
      if_neg (show ¬((0:ℚ) < t ∧ (219.15:ℚ) < t ∧ t ≤ (231.15:ℚ)) from by rintro ⟨-, -, h⟩; linarith),
      if_neg (show ¬((0:ℚ) < t ∧ (231.15:ℚ) < t ∧ t ≤ (242.15:ℚ)) from by rintro ⟨-, -, h⟩; linarith),
      if_neg (show ¬((0:ℚ) < t ∧ (242.15:ℚ) < t ∧ t ≤ (282.15:ℚ)) from by rintro ⟨-, -, h⟩; linarith),
      if_neg (show ¬((0:ℚ) < t ∧ (282.15:ℚ) < t ∧ t ≤ (303.15:ℚ)) from by rintro ⟨-, -, h⟩; linarith),
      if_pos (show (0:ℚ) < t ∧ (303.15:ℚ) < t from ⟨ht, c1⟩),
      if_pos c1]
    norm_num
  · by_cases c2 : (282.15 : ℚ) < t
    · simp only [bdScaleElem, bd_scale_value]
      rw [if_neg (show ¬((0:ℚ) < t ∧ t ≤ (192.15:ℚ)) from by rintro ⟨-, h⟩; linarith),
        if_neg (show ¬((0:ℚ) < t ∧ (192.15:ℚ) < t ∧ t ≤ (197.15:ℚ)) from by rintro ⟨-, -, h⟩; linarith),
        if_neg (show ¬((0:ℚ) < t ∧ (197.15:ℚ) < t ∧ t ≤ (203.15:ℚ)) from by rintro ⟨-, -, h⟩; linarith),
        if_neg (show ¬((0:ℚ) < t ∧ (203.15:ℚ) < t ∧ t ≤ (209.15:ℚ)) from by rintro ⟨-, -, h⟩; linarith),
        if_neg (show ¬((0:ℚ) < t ∧ (209.15:ℚ) < t ∧ t ≤ (219.15:ℚ)) from by rintro ⟨-, -, h⟩; linarith),
        if_neg (show ¬((0:ℚ) < t ∧ (219.15:ℚ) < t ∧ t ≤ (231.15:ℚ)) from by rintro ⟨-, -, h⟩; linarith),
        if_neg (show ¬((0:ℚ) < t ∧ (231.15:ℚ) < t ∧ t ≤ (242.15:ℚ)) from by rintro ⟨-, -, h⟩; linarith),
        if_neg (show ¬((0:ℚ) < t ∧ (242.15:ℚ) < t ∧ t ≤ (282.15:ℚ)) from by rintro ⟨-, -, h⟩; linarith),
        if_pos (show (0:ℚ) < t ∧ (282.15:ℚ) < t ∧ t ≤ (303.15:ℚ) from ⟨ht, c2, by linarith⟩),
        if_neg c1,
        if_pos c2]
      exact u8wrap_eq_intTrunc (by linarith) (by linarith)
    · by_cases c3 : (242.15 : ℚ) < t
      · simp only [bdScaleElem, bd_scale_value]
        rw [if_neg (show ¬((0:ℚ) < t ∧ t ≤ (192.15:ℚ)) from by rintro ⟨-, h⟩; linarith),
          if_neg (show ¬((0:ℚ) < t ∧ (192.15:ℚ) < t ∧ t ≤ (197.15:ℚ)) from by rintro ⟨-, -, h⟩; linarith),
          if_neg (show ¬((0:ℚ) < t ∧ (197.15:ℚ) < t ∧ t ≤ (203.15:ℚ)) from by rintro ⟨-, -, h⟩; linarith),
          if_neg (show ¬((0:ℚ) < t ∧ (203.15:ℚ) < t ∧ t ≤ (209.15:ℚ)) from by rintro ⟨-, -, h⟩; linarith),
          if_neg (show ¬((0:ℚ) < t ∧ (209.15:ℚ) < t ∧ t ≤ (219.15:ℚ)) from by rintro ⟨-, -, h⟩; linarith),
          if_neg (show ¬((0:ℚ) < t ∧ (219.15:ℚ) < t ∧ t ≤ (231.15:ℚ)) from by rintro ⟨-, -, h⟩; linarith),
          if_neg (show ¬((0:ℚ) < t ∧ (231.15:ℚ) < t ∧ t ≤ (242.15:ℚ)) from by rintro ⟨-, -, h⟩; linarith),
          if_pos (show (0:ℚ) < t ∧ (242.15:ℚ) < t ∧ t ≤ (282.15:ℚ) from ⟨ht, c3, by linarith⟩),
          if_neg c1,
          if_neg c2,
          if_pos c3]
        exact u8wrap_eq_intTrunc (by linarith) (by linarith)
      · by_cases c4 : (231.15 : ℚ) < t
        · simp only [bdScaleElem, bd_scale_value]
          rw [if_neg (show ¬((0:ℚ) < t ∧ t ≤ (192.15:ℚ)) from by rintro ⟨-, h⟩; linarith),
            if_neg (show ¬((0:ℚ) < t ∧ (192.15:ℚ) < t ∧ t ≤ (197.15:ℚ)) from by rintro ⟨-, -, h⟩; linarith),
            if_neg (show ¬((0:ℚ) < t ∧ (197.15:ℚ) < t ∧ t ≤ (203.15:ℚ)) from by rintro ⟨-, -, h⟩; linarith),
            if_neg (show ¬((0:ℚ) < t ∧ (203.15:ℚ) < t ∧ t ≤ (209.15:ℚ)) from by rintro ⟨-, -, h⟩; linarith),
            if_neg (show ¬((0:ℚ) < t ∧ (209.15:ℚ) < t ∧ t ≤ (219.15:ℚ)) from by rintro ⟨-, -, h⟩; linarith),
            if_neg (show ¬((0:ℚ) < t ∧ (219.15:ℚ) < t ∧ t ≤ (231.15:ℚ)) from by rintro ⟨-, -, h⟩; linarith),
            if_pos (show (0:ℚ) < t ∧ (231.15:ℚ) < t ∧ t ≤ (242.15:ℚ) from ⟨ht, c4, by linarith⟩),
            if_neg c1,
            if_neg c2,
            if_neg c3,
            if_pos c4]
          norm_num
        · by_cases c5 : (219.15 : ℚ) < t
          · simp only [bdScaleElem, bd_scale_value]
            rw [if_neg (show ¬((0:ℚ) < t ∧ t ≤ (192.15:ℚ)) from by rintro ⟨-, h⟩; linarith),
              if_neg (show ¬((0:ℚ) < t ∧ (192.15:ℚ) < t ∧ t ≤ (197.15:ℚ)) from by rintro ⟨-, -, h⟩; linarith),
              if_neg (show ¬((0:ℚ) < t ∧ (197.15:ℚ) < t ∧ t ≤ (203.15:ℚ)) from by rintro ⟨-, -, h⟩; linarith),
              if_neg (show ¬((0:ℚ) < t ∧ (203.15:ℚ) < t ∧ t ≤ (209.15:ℚ)) from by rintro ⟨-, -, h⟩; linarith),
              if_neg (show ¬((0:ℚ) < t ∧ (209.15:ℚ) < t ∧ t ≤ (219.15:ℚ)) from by rintro ⟨-, -, h⟩; linarith),
              if_pos (show (0:ℚ) < t ∧ (219.15:ℚ) < t ∧ t ≤ (231.15:ℚ) from ⟨ht, c5, by linarith⟩),
              if_neg c1,
              if_neg c2,
              if_neg c3,
              if_neg c4,
              if_pos c5]
            norm_num
          · by_cases c6 : (209.15 : ℚ) < t
            · simp only [bdScaleElem, bd_scale_value]
              rw [if_neg (show ¬((0:ℚ) < t ∧ t ≤ (192.15:ℚ)) from by rintro ⟨-, h⟩; linarith),
                if_neg (show ¬((0:ℚ) < t ∧ (192.15:ℚ) < t ∧ t ≤ (197.15:ℚ)) from by rintro ⟨-, -, h⟩; linarith),
                if_neg (show ¬((0:ℚ) < t ∧ (197.15:ℚ) < t ∧ t ≤ (203.15:ℚ)) from by rintro ⟨-, -, h⟩; linarith),
                if_neg (show ¬((0:ℚ) < t ∧ (203.15:ℚ) < t ∧ t ≤ (209.15:ℚ)) from by rintro ⟨-, -, h⟩; linarith),
                if_pos (show (0:ℚ) < t ∧ (209.15:ℚ) < t ∧ t ≤ (219.15:ℚ) from ⟨ht, c6, by linarith⟩),
                if_neg c1,
                if_neg c2,
                if_neg c3,
                if_neg c4,
                if_neg c5,
                if_pos c6]
              norm_num
            · by_cases c7 : (203.15 : ℚ) < t
              · simp only [bdScaleElem, bd_scale_value]
                rw [if_neg (show ¬((0:ℚ) < t ∧ t ≤ (192.15:ℚ)) from by rintro ⟨-, h⟩; linarith),
                  if_neg (show ¬((0:ℚ) < t ∧ (192.15:ℚ) < t ∧ t ≤ (197.15:ℚ)) from by rintro ⟨-, -, h⟩; linarith),
                  if_neg (show ¬((0:ℚ) < t ∧ (197.15:ℚ) < t ∧ t ≤ (203.15:ℚ)) from by rintro ⟨-, -, h⟩; linarith),
                  if_pos (show (0:ℚ) < t ∧ (203.15:ℚ) < t ∧ t ≤ (209.15:ℚ) from ⟨ht, c7, by linarith⟩),
                  if_neg c1,
                  if_neg c2,
                  if_neg c3,
                  if_neg c4,
                  if_neg c5,
                  if_neg c6,
                  if_pos c7]
                norm_num
              · by_cases c8 : (197.15 : ℚ) < t
                · simp only [bdScaleElem, bd_scale_value]
                  rw [if_neg (show ¬((0:ℚ) < t ∧ t ≤ (192.15:ℚ)) from by rintro ⟨-, h⟩; linarith),
                    if_neg (show ¬((0:ℚ) < t ∧ (192.15:ℚ) < t ∧ t ≤ (197.15:ℚ)) from by rintro ⟨-, -, h⟩; linarith),
                    if_pos (show (0:ℚ) < t ∧ (197.15:ℚ) < t ∧ t ≤ (203.15:ℚ) from ⟨ht, c8, by linarith⟩),
                    if_neg c1,
                    if_neg c2,
                    if_neg c3,
                    if_neg c4,
                    if_neg c5,
                    if_neg c6,
                    if_neg c7,
                    if_pos c8]
                  norm_num
                · by_cases c9 : (192.15 : ℚ) < t
                  · simp only [bdScaleElem, bd_scale_value]
                    rw [if_neg (show ¬((0:ℚ) < t ∧ t ≤ (192.15:ℚ)) from by rintro ⟨-, h⟩; linarith),
                      if_pos (show (0:ℚ) < t ∧ (192.15:ℚ) < t ∧ t ≤ (197.15:ℚ) from ⟨ht, c9, by linarith⟩),
                      if_neg c1,
                      if_neg c2,
                      if_neg c3,
                      if_neg c4,
                      if_neg c5,
                      if_neg c6,
                      if_neg c7,
                      if_neg c8,
                      if_pos c9]
                    norm_num
                  · simp only [bdScaleElem, bd_scale_value]
                    rw [if_pos (show (0:ℚ) < t ∧ t ≤ (192.15:ℚ) from ⟨ht, by linarith⟩),
                      if_neg c1,
                      if_neg c2,
                      if_neg c3,
                      if_neg c4,
                      if_neg c5,
                      if_neg c6,
                      if_neg c7,
                      if_neg c8,
                      if_neg c9]
                    norm_num

/-- On positive temperatures the scalar BD ramp is nonnegative. -/
theorem bd_scale_value_nonneg (t : ℚ) (ht : 0 < t) :
    0 ≤ bd_scale_value t := by
  simp only [bd_scale_value]
  split_ifs <;>
    first
      | (exact intTrunc_nonneg (by linarith))
      | norm_num

/-- C10: for every positive temperature t in an array, each of the three
replicated channels of the vectorized bd_scale output equals the scalar
reference bd_scale_value at t (whose value is nonnegative, so the uint8
store does not wrap). -/
theorem bd_scalar_vector_agree (l : List ℚ) (i : ℕ) (t : ℚ)
    (hget : l.get? i = some t) (ht : 0 < t) :
    (bdScale l).get? i =
      some ((bd_scale_value t).toNat, (bd_scale_value t).toNat, (bd_scale_value t).toNat) ∧
    ((bd_scale_value t).toNat : ℤ) = bd_scale_value t := by
  have hA := bd_elem_eq_scalar_val t ht
  have hB := bd_scale_value_nonneg t ht
  have helem : bdScaleElem t = (bd_scale_value t).toNat := by omega
  constructor
  · simp only [bdScale, List.get?_map, hget, Option.map_some', helem]
  · omega

/-- C10 witness: the concrete temperature 235 K (constant band 80). -/
theorem bd_scalar_vector_agree_witness :
    (bdScale [235]).get? 0 =
      some ((bd_scale_value 235).toNat, (bd_scale_value 235).toNat,
        (bd_scale_value 235).toNat) ∧
    ((bd_scale_value 235).toNat : ℤ) = bd_scale_value 235 :=
  bd_scalar_vector_agree [235] 0 235 rfl (by norm_num)
